import Mathlib

/-!
Shallow embedding of the `tsc-rs` structural type checker
(`src/types.rs` and `src/type_checker.rs`) and proofs about it.

The embedding translates the Rust source directly:
* `Type` (Rust enum) becomes the inductive `Ty` (the name `Type` is
  reserved in Lean); `Arc<Type>` fields become plain `Ty` fields, since
  `Arc` only provides shared ownership of immutable values.
* `f64` literal payloads become the inductive `F64` below, a model of the
  IEEE-754 binary64 values on which the only operation the checker ever
  performs is `==` (plus `Display` formatting); `-0.0` is collapsed into
  `finite 0` because `==` cannot distinguish it from `0.0`.
* `&mut self` methods become explicit state passing on a `TypeChecker`
  structure; `Vec::push` becomes appending to a `List`.
-/

/-- Model of an IEEE-754 binary64 value (`f64`). Finite values embed into
`ℚ`; `nan` and the two infinities are separate constructors. -/
inductive F64 where
  | nan : F64
  | inf (negative : Bool) : F64
  | finite (val : ℚ) : F64
deriving DecidableEq, Repr

/-- Rust `f64::eq` (`PartialEq`): `NaN` compares unequal to everything,
including itself; finite values compare by value. -/
def F64.beq : F64 → F64 → Bool
  | .nan, _ => false
  | _, .nan => false
  | .inf s1, .inf s2 => s1 == s2
  | .inf _, .finite _ => false
  | .finite _, .inf _ => false
  | .finite q1, .finite q2 => q1 == q2

/-- Rust `Display` for `f64` as far as this development exercises it: the
only `NumberLiteral` payloads that are ever rendered are integral. -/
def F64.render : F64 → String
  | .nan => "NaN"
  | .inf negative => if negative then "-inf" else "inf"
  | .finite q => if q.den == 1 then toString q.num else toString q

/-- The `Type` enum of `src/types.rs` (named `Ty` because `Type` is a Lean
keyword). Constructor names and order follow the source. -/
inductive Ty where
  | Any : Ty
  | Number : Ty
  | String : Ty
  | Boolean : Ty
  | Null : Ty
  | Undefined : Ty
  | Never : Ty
  | BigInt : Ty
  | Symbol : Ty
  | Object : Ty
  | Unknown : Ty
  | Void : Ty
  | StringLiteral (s : String) : Ty
  | NumberLiteral (n : F64) : Ty
  | BooleanLiteral (b : Bool) : Ty
  | Union (types : List Ty) : Ty
  | Array (elem : Ty) : Ty
  | Tuple (types : List Ty) : Ty
  | Function (params : List Ty) (return_ty : Ty) : Ty

mutual

/-- The `impl fmt::Display for Type` of `src/types.rs`. -/
def renderTy : Ty → String
  | .Any => "any"
  | .Number => "number"
  | .String => "string"
  | .Boolean => "boolean"
  | .Null => "null"
  | .Undefined => "undefined"
  | .Never => "never"
  | .BigInt => "bigint"
  | .Symbol => "symbol"
  | .Object => "object"
  | .Unknown => "unknown"
  | .Void => "void"
  | .StringLiteral s => "\"" ++ s ++ "\""
  | .NumberLiteral n => F64.render n
  | .BooleanLiteral b => if b then "true" else "false"
  | .Union types => String.intercalate " | " (renderTyList types)
  | .Array elem => renderTy elem ++ "[]"
  | .Tuple types => "[" ++ String.intercalate ", " (renderTyList types) ++ "]"
  | .Function params return_ty =>
      "(" ++ String.intercalate ", " (renderTyList params) ++ ") => " ++ renderTy return_ty

/-- The `types.iter().map(|t| t.to_string()).collect()` loop of the `Display` impl. -/
def renderTyList : List Ty → List String
  | [] => []
  | t :: ts => renderTy t :: renderTyList ts

end

mutual

/-- The function `check_type_compatibility` of `src/types.rs`, arm for arm in source
order; the two list combinators of the source
(`types.iter().any(...)` and `zip(..).all(...)`) are the mutual helpers
`anyCompatible` and `allPairsCompatible` below. -/
def check_type_compatibility : Ty → Ty → Bool
  | .Any, _ => true
  | .Number, .Number => true
  | .String, .String => true
  | .Boolean, .Boolean => true
  | .Null, .Null => true
  | .Undefined, .Undefined => true
  | .Never, .Never => true
  | .BigInt, .BigInt => true
  | .Symbol, .Symbol => true
  | .Object, .Object => true
  | .Unknown, .Unknown => true
  | .Void, .Void => true
  | .Number, .NumberLiteral _ => true
  | .String, .StringLiteral _ => true
  | .Boolean, .BooleanLiteral _ => true
  | .NumberLiteral n1, .NumberLiteral n2 => F64.beq n1 n2
  | .StringLiteral s1, .StringLiteral s2 => s1 == s2
  | .BooleanLiteral b1, .BooleanLiteral b2 => b1 == b2
  | .Union types, actual => anyCompatible types actual
  | .Array expected_elem, .Array actual_elem => check_type_compatibility expected_elem actual_elem
  | .Tuple expected_types, .Tuple actual_types =>
      expected_types.length == actual_types.length
        && allPairsCompatible expected_types actual_types
  | .Function params1 return1, .Function params2 return2 =>
      params1.length == params2.length
        && allPairsCompatible params1 params2
        && check_type_compatibility return1 return2
  | _, _ => false

/-- The `types.iter().any(|t| check_type_compatibility(t, actual))` combinator. -/
def anyCompatible : List Ty → Ty → Bool
  | [], _ => false
  | t :: ts, actual => check_type_compatibility t actual || anyCompatible ts actual

/-- The `xs.iter().zip(ys.iter()).all(|(x, y)| check_type_compatibility(x, y))` combinator
(`zip` truncates to the shorter list; `all` of the empty list is `true`). -/
def allPairsCompatible : List Ty → List Ty → Bool
  | [], _ => true
  | _, [] => true
  | x :: xs, y :: ys => check_type_compatibility x y && allPairsCompatible xs ys

end

/-!
### AST nodes

The checker consumes the oxc AST read-only. Each inductive below carries
exactly the structure `check_type` / `check_expression` / `check_statement`
inspect; payloads the checker never reads (literal values, spans) are
dropped. Variant names follow oxc.
-/

/-- oxc `TSType`, restricted to what `check_type` inspects. Tuple elements
that are not plain types (`as_ts_type() == None`) and function parameters
without a type annotation are modelled as `none`; `otherType` covers every
`TSType` variant hit by the source's final `_ => Type::Any` arm. -/
inductive TSTyp where
  | TSAnyKeyword : TSTyp
  | TSNumberKeyword : TSTyp
  | TSStringKeyword : TSTyp
  | TSBooleanKeyword : TSTyp
  | TSNullKeyword : TSTyp
  | TSUndefinedKeyword : TSTyp
  | TSNeverKeyword : TSTyp
  | TSBigIntKeyword : TSTyp
  | TSSymbolKeyword : TSTyp
  | TSObjectKeyword : TSTyp
  | TSUnknownKeyword : TSTyp
  | TSVoidKeyword : TSTyp
  | TSArrayType (element_ty : TSTyp) : TSTyp
  | TSTupleType (element_types : List (Option TSTyp)) : TSTyp
  | TSUnionType (types : List TSTyp) : TSTyp
  | TSFunctionType (params : List (Option TSTyp)) (return_ty : TSTyp) : TSTyp
  | otherType : TSTyp

mutual

/-- Rust `TypeChecker::check_type` of `src/type_checker.rs`. In Rust it takes
`&self` but reads no state, so it is modelled as a pure function. -/
def check_type : TSTyp → Ty
  | .TSAnyKeyword => .Any
  | .TSNumberKeyword => .Number
  | .TSStringKeyword => .String
  | .TSBooleanKeyword => .Boolean
  | .TSNullKeyword => .Null
  | .TSUndefinedKeyword => .Undefined
  | .TSNeverKeyword => .Never
  | .TSBigIntKeyword => .BigInt
  | .TSSymbolKeyword => .Symbol
  | .TSObjectKeyword => .Object
  | .TSUnknownKeyword => .Unknown
  | .TSVoidKeyword => .Void
  | .TSArrayType element_ty => .Array (check_type element_ty)
  | .TSTupleType element_types => .Tuple (checkTupleElems element_types)
  | .TSUnionType types => .Union (checkTypeList types)
  | .TSFunctionType params return_ty => .Function (checkFuncParams params) (check_type return_ty)
  | .otherType => .Any

/-- The `map` over union members in `check_type`. -/
def checkTypeList : List TSTyp → List Ty
  | [] => []
  | t :: ts => check_type t :: checkTypeList ts

/-- The `map` over tuple elements: a non-`TSType` element defaults to `Any`. -/
def checkTupleElems : List (Option TSTyp) → List Ty
  | [] => []
  | some t :: ts => check_type t :: checkTupleElems ts
  | none :: ts => Ty.Any :: checkTupleElems ts

/-- The `filter_map` over function-type parameters: parameters without a
type annotation are skipped entirely. -/
def checkFuncParams : List (Option TSTyp) → List Ty
  | [] => []
  | some t :: ts => check_type t :: checkFuncParams ts
  | none :: ts => checkFuncParams ts

end

/-- oxc `BinaryOperator` — all 22 variants. Because every variant is
matched explicitly in `check_expression`, the source's trailing
`_ => Type::Any` arm of the operator match is unreachable. -/
inductive BinaryOperator where
  | Equality : BinaryOperator
  | Inequality : BinaryOperator
  | StrictEquality : BinaryOperator
  | StrictInequality : BinaryOperator
  | LessThan : BinaryOperator
  | LessEqualThan : BinaryOperator
  | GreaterThan : BinaryOperator
  | GreaterEqualThan : BinaryOperator
  | ShiftLeft : BinaryOperator
  | ShiftRight : BinaryOperator
  | ShiftRightZeroFill : BinaryOperator
  | Addition : BinaryOperator
  | Subtraction : BinaryOperator
  | Multiplication : BinaryOperator
  | Division : BinaryOperator
  | Remainder : BinaryOperator
  | BitwiseOR : BinaryOperator
  | BitwiseXOR : BinaryOperator
  | BitwiseAnd : BinaryOperator
  | In : BinaryOperator
  | Instanceof : BinaryOperator
  | Exponential : BinaryOperator
deriving DecidableEq, Repr

/-- oxc `Expression`, restricted to what `check_expression` inspects.
Array elements are `Option Expr`: `none` models an element for which
`as_expression()` returns `None` (elision/spread). `otherExpr` covers the
source's final `_ => Type::Any` arm. -/
inductive Expr where
  | NumericLiteral : Expr
  | BigIntLiteral : Expr
  | StringLiteral : Expr
  | BooleanLiteral : Expr
  | NullLiteral : Expr
  | Identifier (name : String) : Expr
  | ArrayExpression (elements : List (Option Expr)) : Expr
  | BinaryExpression (operator : BinaryOperator) (left right : Expr) : Expr
  | otherExpr : Expr

/-- oxc `BindingPatternKind`: the checker only distinguishes
`BindingIdentifier` from every other pattern kind. -/
inductive BindingPatternKind where
  | BindingIdentifier (name : String) : BindingPatternKind
  | otherPattern : BindingPatternKind

/-- oxc `BindingPattern` (`kind` plus optional type annotation; the
annotation field is called `tyAnn` here). -/
structure BindingPattern where
  kind : BindingPatternKind
  tyAnn : Option TSTyp

/-- oxc `VariableDeclarator` (`id`, optional `init`). -/
structure Declarator where
  id : BindingPattern
  init : Option Expr

/-- oxc `Statement`, restricted to what the checker inspects. A
`FunctionDeclaration` holds its optional name, its parameter patterns
(`params.items[i].pattern`), its optional return-type annotation and its
optional body statements. `otherStmt` covers the `_ => {}` arm. -/
inductive Stmt where
  | VariableDeclaration (declarations : List Declarator) : Stmt
  | FunctionDeclaration (id : Option String) (params : List BindingPattern)
      (return_tyAnn : Option TSTyp) (body : Option (List Stmt)) : Stmt
  | ReturnStatement (argument : Option Expr) : Stmt
  | otherStmt : Stmt

/-- oxc `Program`: the checker only reads `body`. -/
structure Program where
  body : List Stmt

/-!
### The checker state

`struct TypeChecker { errors: Vec<String>, symbol_table: HashMap<String, Type> }`.
The `HashMap` is modelled as an association list in which `insert`
prepends and lookup takes the first match, so a later insert for the same
name overwrites the earlier one, exactly like `HashMap::insert` /
`HashMap::get`. The checker never iterates over the table, so no other
aspect of `HashMap` is observable. `Vec::push` on `errors` becomes
appending a singleton. -/
structure TypeChecker where
  errors : List String
  symbol_table : List (String × Ty)

/-- Rust `TypeChecker::new`. -/
def TypeChecker.new : TypeChecker := ⟨[], []⟩

/-- Rust `self.symbol_table.insert(name, ty)`. -/
def symbolInsert (name : String) (ty : Ty) (table : List (String × Ty)) :
    List (String × Ty) :=
  (name, ty) :: table

/-- The `format!` string of the invalid-binary-operation diagnostic. -/
def binOpError (left_ty right_ty : Ty) : String :=
  "The binary operation between '" ++ renderTy left_ty ++ "' and '"
    ++ renderTy right_ty ++ "' is not allowed"

/-- The `format!` string of the not-assignable diagnostic. -/
def notAssignableError (init_ty var_ty : Ty) : String :=
  "Type '" ++ renderTy init_ty ++ "' is not assignable to type '"
    ++ renderTy var_ty ++ "'"

/-- Rust `matches!(ty, Type::String)` in the `Addition` arm. -/
def isStringTy : Ty → Bool
  | .String => true
  | _ => false

/-- The `match ident.name.as_str()` block of the `Identifier` arm of
`check_expression`: a primitive keyword spelling evaluates to its
primitive type directly, bypassing the symbol table; any other name is
`self.symbol_table.get(..).cloned().unwrap_or(Type::Any)`. -/
def identType (name : String) (table : List (String × Ty)) : Ty :=
  match name with
  | "number" => .Number
  | "string" => .String
  | "boolean" => .Boolean
  | "bigint" => .BigInt
  | "symbol" => .Symbol
  | "null" => .Null
  | "never" => .Never
  | "void" => .Void
  | "unknown" => .Unknown
  | "any" => .Any
  | _ => (table.lookup name).getD .Any

/-- The `match bin_expr.operator { ... }` block of `check_expression`,
arm for arm in source order. The source pushes the at-most-one
invalid-binary-operation diagnostic onto `self.errors` in place; here
that diagnostic is returned in the first component and appended by the
caller (`check_expression`) — the only difference from the source text.
Every `BinaryOperator` variant is matched, so the source's trailing
`_ => Type::Any` operator arm is unreachable and has no counterpart. -/
def binary_op_result (operator : BinaryOperator) (left_ty right_ty : Ty) :
    Option String × Ty :=
  match operator with
  | .Addition =>
      if isStringTy left_ty || isStringTy right_ty then (none, .String)
      else
        match left_ty, right_ty with
        | .BigInt, .BigInt => (none, .BigInt)
        | .Number, .Number => (none, .Number)
        | .BigInt, _ => (some (binOpError left_ty right_ty), .Number)
        | _, .BigInt => (some (binOpError left_ty right_ty), .Number)
        | _, _ => (none, .Number)
  | .Subtraction | .Multiplication | .Division | .Remainder | .Exponential =>
      match left_ty, right_ty with
      | .BigInt, .BigInt => (none, .BigInt)
      | .Number, .Number => (none, .Number)
      | .BigInt, _ => (some (binOpError left_ty right_ty), .Number)
      | _, .BigInt => (some (binOpError left_ty right_ty), .Number)
      | _, _ => (none, .Any)
  | .LessThan | .LessEqualThan | .GreaterThan | .GreaterEqualThan
  | .Equality | .Inequality | .StrictEquality | .StrictInequality
  | .In | .Instanceof => (none, .Boolean)
  | .BitwiseAnd | .BitwiseOR | .BitwiseXOR
  | .ShiftLeft | .ShiftRight | .ShiftRightZeroFill =>
      match left_ty, right_ty with
      | .BigInt, .BigInt => (none, .BigInt)
      | .Number, .Number => (none, .Number)
      | .BigInt, _ => (some (binOpError left_ty right_ty), .Number)
      | _, .BigInt => (some (binOpError left_ty right_ty), .Number)
      | _, _ => (none, .Number)

/-- Rust `TypeChecker::check_expression` (`&mut self` becomes explicit state
passing: the returned checker carries any newly pushed diagnostics; the
symbol table is only read, never written, by this method). -/
def check_expression : TypeChecker → Expr → TypeChecker × Ty
  | c, .NumericLiteral => (c, .Number)
  | c, .BigIntLiteral => (c, .BigInt)
  | c, .StringLiteral => (c, .String)
  | c, .BooleanLiteral => (c, .Boolean)
  | c, .NullLiteral => (c, .Null)
  | c, .Identifier name => (c, identType name c.symbol_table)
  | c, .ArrayExpression elements =>
      match elements with
      | (some e) :: _ =>
          let (c1, elem_ty) := check_expression c e
          (c1, .Array elem_ty)
      | none :: _ => (c, .Array .Any)
      | [] => (c, .Array .Any)
  | c, .BinaryExpression operator left right =>
      let (c1, left_ty) := check_expression c left
      let (c2, right_ty) := check_expression c1 right
      let (diag, result_ty) := binary_op_result operator left_ty right_ty
      (match diag with
       | some msg => {c2 with errors := c2.errors ++ [msg]}
       | none => c2,
       result_ty)
  | c, .otherExpr => (c, .Any)

/-- The body of the `for decl in &var_decl.declarations` loop of
`check_statement`, for one declarator. -/
def check_declarator (c : TypeChecker) (decl : Declarator) : TypeChecker :=
  match decl.id.kind with
  | .BindingIdentifier name =>
      let (c1, var_ty) :=
        match decl.id.tyAnn with
        | some ann => (c, check_type ann)
        | none =>
            match decl.init with
            | some init => check_expression c init
            | none => (c, Ty.Any)
      let c2 := {c1 with symbol_table := symbolInsert name var_ty c1.symbol_table}
      match decl.init with
      | some init =>
          let (c3, init_ty) := check_expression c2 init
          if check_type_compatibility var_ty init_ty then c3
          else {c3 with errors := c3.errors ++ [notAssignableError init_ty var_ty]}
      | none => c2
  | .otherPattern => c

/-- The `for decl in &var_decl.declarations` loop itself. -/
def check_declarators : TypeChecker → List Declarator → TypeChecker
  | c, [] => c
  | c, decl :: rest => check_declarators (check_declarator c decl) rest

/-- The `for param in &func_decl.params.items` loop: computes each
parameter's type (annotation or `Any`), inserts identifier patterns into
the flat symbol table, and collects the parameter types in order. -/
def declare_params : TypeChecker → List BindingPattern → TypeChecker × List Ty
  | c, [] => (c, [])
  | c, p :: ps =>
      let param_ty :=
        match p.tyAnn with
        | some ann => check_type ann
        | none => Ty.Any
      let c1 :=
        match p.kind with
        | .BindingIdentifier name =>
            {c with symbol_table := symbolInsert name param_ty c.symbol_table}
        | .otherPattern => c
      let (c2, rest) := declare_params c1 ps
      (c2, param_ty :: rest)

mutual

/-- Rust `TypeChecker::check_statement`. -/
def check_statement : TypeChecker → Stmt → TypeChecker
  | c, .VariableDeclaration declarations => check_declarators c declarations
  | c, .FunctionDeclaration id params return_tyAnn body =>
      match id with
      | some name =>
          let (c1, param_types) := declare_params c params
          let return_ty :=
            match return_tyAnn with
            | some ann => check_type ann
            | none => Ty.Any
          let c2 := {c1 with
            symbol_table := symbolInsert name (.Function param_types return_ty) c1.symbol_table}
          match body with
          | some stmts => check_function_body c2 return_ty stmts
          | none => c2
      | none => c
  | c, .ReturnStatement _ => c
  | c, .otherStmt => c

/-- The `for stmt in &body.statements` loop inside the
`FunctionDeclaration` arm: `return <expr>` statements are checked against
the declared return type; every other statement recurses through
`check_statement`. -/
def check_function_body : TypeChecker → Ty → List Stmt → TypeChecker
  | c, _, [] => c
  | c, return_ty, stmt :: rest =>
      let c1 :=
        match stmt with
        | .ReturnStatement (some arg) =>
            let (ca, actual_return_ty) := check_expression c arg
            if check_type_compatibility return_ty actual_return_ty then ca
            else {ca with errors := ca.errors ++ [notAssignableError actual_return_ty return_ty]}
        | .ReturnStatement none => c
        | _ => check_statement c stmt
      check_function_body c1 return_ty rest

end

/-- The `for item in &program.body` loop of `check_program`. -/
def check_statement_list : TypeChecker → List Stmt → TypeChecker
  | c, [] => c
  | c, stmt :: rest => check_statement_list (check_statement c stmt) rest

/-- Rust `TypeChecker::check_program`. -/
def check_program (c : TypeChecker) (program : Program) : TypeChecker :=
  check_statement_list c program.body

/-- Rust `TypeChecker::get_errors`. -/
def get_errors (c : TypeChecker) : List String :=
  c.errors

/-!
### Specification-side definitions used by the theorems below
-/

/-- The twelve primitive type kinds, indexed; index 0 is `Any`. -/
def primTy : Fin 12 → Ty :=
  ![.Any, .Number, .String, .Boolean, .Null, .Undefined, .Never, .BigInt,
    .Symbol, .Object, .Unknown, .Void]

/- Unfolding equations for the mutually recursive definitions above,
proved by `rfl` (automatic equation generation for these nested mutual
definitions is prohibitively slow, so they are stated by hand). -/

@[simp] theorem anyCompatible_nil (a : Ty) : anyCompatible [] a = false := rfl

@[simp] theorem anyCompatible_cons (t : Ty) (ts : List Ty) (a : Ty) :
    anyCompatible (t :: ts) a
      = (check_type_compatibility t a || anyCompatible ts a) := rfl

@[simp] theorem allPairsCompatible_nil_left (ys : List Ty) :
    allPairsCompatible [] ys = true := by cases ys <;> rfl

@[simp] theorem allPairsCompatible_nil_right (xs : List Ty) :
    allPairsCompatible xs [] = true := by cases xs <;> rfl

@[simp] theorem allPairsCompatible_cons (x y : Ty) (xs ys : List Ty) :
    allPairsCompatible (x :: xs) (y :: ys)
      = (check_type_compatibility x y && allPairsCompatible xs ys) := rfl


/-- The ten primitive keyword spellings special-cased in the `Identifier`
arm of `check_expression` (note: `undefined` and `object` are not among
them). -/
def primitiveKeywords : List String :=
  ["number", "string", "boolean", "bigint", "symbol", "null", "never", "void", "unknown", "any"]


/-- The identifiers whose symbol-table entries an expression's evaluation
can read: the checker only descends into the first array element and both
binary operands. -/
def evalIdents : Expr → List String
  | .Identifier name => [name]
  | .ArrayExpression (some e :: _) => evalIdents e
  | .BinaryExpression _ l r => evalIdents l ++ evalIdents r
  | _ => []


/-- Holds when `c'` carries the diagnostics of `c` as an unchanged prefix. -/
def ErrorsExtend (c c' : TypeChecker) : Prop :=
  ∃ d, c'.errors = c.errors ++ d


/-!
### Scenario D (`let a: bigint = 1n; let c: number = 3; let i = a + c;`)

Because the `i` declarator has an initializer but no annotation,
`check_statement` evaluates `a + c` once to infer `i`'s type and a second
time for the (vacuous) compatibility check, so the single
invalid-binary-operation diagnostic of the expression is recorded twice.
-/

/-- Statement `let a: bigint = 1n;`. -/
def scenarioD_stmt1 : Stmt :=
  .VariableDeclaration [⟨⟨.BindingIdentifier "a", some .TSBigIntKeyword⟩, some .BigIntLiteral⟩]

/-- Statement `let c: number = 3;`. -/
def scenarioD_stmt2 : Stmt :=
  .VariableDeclaration [⟨⟨.BindingIdentifier "c", some .TSNumberKeyword⟩, some .NumericLiteral⟩]

/-- Statement `let i = a + c;`. -/
def scenarioD_stmt3 : Stmt :=
  .VariableDeclaration
    [⟨⟨.BindingIdentifier "i", none⟩,
      some (.BinaryExpression .Addition (.Identifier "a") (.Identifier "c"))⟩]

def scenarioD_program : Program := ⟨[scenarioD_stmt1, scenarioD_stmt2, scenarioD_stmt3]⟩



/-!
### Facts about the assignability relation
-/

theorem anyCompatible_iff_exists (ms : List Ty) (a : Ty) :
    anyCompatible ms a = true ↔ ∃ m ∈ ms, check_type_compatibility m a = true := by
  induction ms with
  | nil => simp
  | cons t ts ih => simp [Bool.or_eq_true, ih]

theorem allPairsCompatible_iff_get :
    ∀ (xs ys : List Ty), xs.length = ys.length →
      (allPairsCompatible xs ys = true ↔
        ∀ (i : ℕ) (h1 : i < xs.length) (h2 : i < ys.length),
          check_type_compatibility (xs.get ⟨i, h1⟩) (ys.get ⟨i, h2⟩) = true)
  | [], [], _ => by simp
  | [], y :: ys, h => by simp at h
  | x :: xs, [], h => by simp at h
  | x :: xs, y :: ys, h => by
      have ih := allPairsCompatible_iff_get xs ys (by simpa using h)
      simp only [allPairsCompatible_cons, Bool.and_eq_true, ih]
      constructor
      · rintro ⟨hxy, hrest⟩ i h1 h2
        cases i with
        | zero => exact hxy
        | succ n =>
            exact hrest n (Nat.lt_of_succ_lt_succ h1) (Nat.lt_of_succ_lt_succ h2)
      · intro hall
        refine ⟨hall 0 (by simp) (by simp), fun n hn1 hn2 => ?_⟩
        exact hall (n + 1) (Nat.succ_lt_succ hn1) (Nat.succ_lt_succ hn2)

/-- C3: for primitive pairs, `check_type_compatibility p q` holds exactly
when `p = q` or `p = Any` (`primTy 0 = Any`); `Any` as the expected side
accepts every type whatsoever; and no primitive other than `Any` accepts
`Any` as the actual side. -/
theorem claim_C3_primitive_pairs :
    (∀ i j : Fin 12,
        check_type_compatibility (primTy i) (primTy j)
          = (decide (i = j) || decide (i = 0)))
    ∧ (∀ t : Ty, check_type_compatibility .Any t = true)
    ∧ (∀ i : Fin 12, check_type_compatibility (primTy i) .Any = decide (i = 0)) := by
  refine ⟨by decide, fun t => rfl, by decide⟩

/-- C4: literal widening is one-directional — a literal is compatible when
the expected side is its base primitive, never the reverse. -/
theorem claim_C4_literal_widening :
    ∀ (v : F64) (s : String) (b : Bool),
      check_type_compatibility .Number (.NumberLiteral v) = true
      ∧ check_type_compatibility (.NumberLiteral v) .Number = false
      ∧ check_type_compatibility .String (.StringLiteral s) = true
      ∧ check_type_compatibility (.StringLiteral s) .String = false
      ∧ check_type_compatibility .Boolean (.BooleanLiteral b) = true
      ∧ check_type_compatibility (.BooleanLiteral b) .Boolean = false :=
  fun _ _ _ => ⟨rfl, rfl, rfl, rfl, rfl, rfl⟩

/-- C5: an expected `Union` accepts an actual exactly when some member
accepts it; a `Union` actual is compared whole and never decomposed, so
`Union [Number]` is not accepted by the wider `Union [Number, String]`. -/
theorem claim_C5_union_expected :
    (∀ (ms : List Ty) (a : Ty),
        check_type_compatibility (.Union ms) a = true
          ↔ ∃ m ∈ ms, check_type_compatibility m a = true)
    ∧ check_type_compatibility (.Union [.Number, .String]) (.Union [.Number]) = false := by
  refine ⟨fun ms a => ?_, by decide⟩
  show anyCompatible ms a = true ↔ _
  exact anyCompatible_iff_exists ms a

theorem claim_C5_union_expected_witness :
    check_type_compatibility (.Union [.Number, .String]) .Number = true :=
  (claim_C5_union_expected.1 [.Number, .String] .Number).mpr ⟨.Number, by simp, rfl⟩

/-- C6: two `Function` types are compatible exactly when they have equally
many parameters, each parameter pair is compatible in the same (covariant)
direction as the return type, and the return types are compatible. -/
theorem claim_C6_function_compat :
    ∀ (ps1 : List Ty) (r1 : Ty) (ps2 : List Ty) (r2 : Ty),
      check_type_compatibility (.Function ps1 r1) (.Function ps2 r2) = true
        ↔ ps1.length = ps2.length
          ∧ (∀ (i : ℕ) (h1 : i < ps1.length) (h2 : i < ps2.length),
              check_type_compatibility (ps1.get ⟨i, h1⟩) (ps2.get ⟨i, h2⟩) = true)
          ∧ check_type_compatibility r1 r2 = true := by
  intro ps1 r1 ps2 r2
  show (ps1.length == ps2.length && allPairsCompatible ps1 ps2
          && check_type_compatibility r1 r2) = true ↔ _
  simp only [Bool.and_eq_true, beq_iff_eq]
  constructor
  · rintro ⟨⟨hlen, hpairs⟩, hret⟩
    exact ⟨hlen, (allPairsCompatible_iff_get _ _ hlen).mp hpairs, hret⟩
  · rintro ⟨hlen, hget, hret⟩
    exact ⟨⟨hlen, (allPairsCompatible_iff_get _ _ hlen).mpr hget⟩, hret⟩

theorem claim_C6_function_compat_witness :
    check_type_compatibility (.Function [.Number] .Boolean) (.Function [.Number] .Boolean)
      = true :=
  (claim_C6_function_compat [.Number] .Boolean [.Number] .Boolean).mpr
    ⟨rfl,
     fun i h1 _ => by
       match i, h1 with
       | 0, _ => exact rfl,
     rfl⟩

/-- C10: assignability is not reflexive: `Union [Number]` does not accept
itself (a `Union` actual is compared whole against the member `Number`),
and `NumberLiteral NaN` does not accept itself (the `f64` equality used on
raw values makes `NaN` unequal to itself). -/
theorem claim_C10_not_reflexive :
    check_type_compatibility (.Union [.Number]) (.Union [.Number]) = false
    ∧ check_type_compatibility (.NumberLiteral .nan) (.NumberLiteral .nan) = false := by
  exact ⟨rfl, rfl⟩

/-- C1 (what the code actually does on Scenario D): a fresh checker run on
`let a: bigint = 1n; let c: number = 3; let i = a + c;` records the
invalid-binary-operation diagnostic TWICE (not once, as the claim states),
because the unannotated initializer `a + c` is evaluated once for
inference and once more for the compatibility check; `i` is bound to
`Number` as claimed. -/
theorem claim_C1_scenarioD_eval :
    get_errors (check_program TypeChecker.new scenarioD_program)
      = ["The binary operation between 'bigint' and 'number' is not allowed",
         "The binary operation between 'bigint' and 'number' is not allowed"]
    ∧ (check_program TypeChecker.new scenarioD_program).symbol_table.lookup "i"
      = some .Number
    ∧ (get_errors (check_program TypeChecker.new scenarioD_program)).length = 2 :=
  ⟨rfl, rfl, rfl⟩

/-!
### Identifier evaluation (C8)
-/

theorem identType_not_keyword (name : String) (table : List (String × Ty))
    (h : name ∉ primitiveKeywords) :
    identType name table = (table.lookup name).getD .Any := by
  simp only [primitiveKeywords, List.mem_cons, not_or] at h
  obtain ⟨h1, h2, h3, h4, h5, h6, h7, h8, h9, h10, -⟩ := h
  unfold identType
  split <;> simp_all

/-- C8: an identifier spelled like a primitive keyword evaluates to that
primitive type no matter what the symbol table holds; every other
identifier is looked up in the symbol table and defaults to `Any` when
unresolved; no diagnostic is appended in any case (the checker state is
returned unchanged). -/
theorem claim_C8_identifier_eval :
    (∀ c : TypeChecker,
        check_expression c (.Identifier "number") = (c, .Number)
      ∧ check_expression c (.Identifier "string") = (c, .String)
      ∧ check_expression c (.Identifier "boolean") = (c, .Boolean)
      ∧ check_expression c (.Identifier "bigint") = (c, .BigInt)
      ∧ check_expression c (.Identifier "symbol") = (c, .Symbol)
      ∧ check_expression c (.Identifier "null") = (c, .Null)
      ∧ check_expression c (.Identifier "never") = (c, .Never)
      ∧ check_expression c (.Identifier "void") = (c, .Void)
      ∧ check_expression c (.Identifier "unknown") = (c, .Unknown)
      ∧ check_expression c (.Identifier "any") = (c, .Any))
    ∧ (∀ (c : TypeChecker) (name : String), name ∉ primitiveKeywords →
        check_expression c (.Identifier name)
          = (c, (c.symbol_table.lookup name).getD .Any)) := by
  constructor
  · exact fun c => ⟨rfl, rfl, rfl, rfl, rfl, rfl, rfl, rfl, rfl, rfl⟩
  · intro c name h
    show (c, identType name c.symbol_table) = _
    rw [identType_not_keyword name c.symbol_table h]

theorem claim_C8_identifier_eval_witness :
    check_expression ⟨[], [("number", Ty.BigInt), ("foo", Ty.BigInt)]⟩ (.Identifier "number")
      = (⟨[], [("number", Ty.BigInt), ("foo", Ty.BigInt)]⟩, .Number)
    ∧ check_expression ⟨[], [("number", Ty.BigInt), ("foo", Ty.BigInt)]⟩ (.Identifier "foo")
      = (⟨[], [("number", Ty.BigInt), ("foo", Ty.BigInt)]⟩, .BigInt)
    ∧ check_expression ⟨[], [("number", Ty.BigInt), ("foo", Ty.BigInt)]⟩ (.Identifier "bar")
      = (⟨[], [("number", Ty.BigInt), ("foo", Ty.BigInt)]⟩, .Any) := by
  refine ⟨(claim_C8_identifier_eval.1 _).1, ?_, ?_⟩
  · rw [claim_C8_identifier_eval.2 _ "foo" (by decide)]; rfl
  · rw [claim_C8_identifier_eval.2 _ "bar" (by decide)]; rfl

/- Arm-level unfolding equations for `check_expression`, proved by `rfl`. -/

@[simp] theorem check_expression_numeric (c : TypeChecker) :
    check_expression c .NumericLiteral = (c, .Number) := rfl

@[simp] theorem check_expression_bigintlit (c : TypeChecker) :
    check_expression c .BigIntLiteral = (c, .BigInt) := rfl

@[simp] theorem check_expression_stringlit (c : TypeChecker) :
    check_expression c .StringLiteral = (c, .String) := rfl

@[simp] theorem check_expression_boollit (c : TypeChecker) :
    check_expression c .BooleanLiteral = (c, .Boolean) := rfl

@[simp] theorem check_expression_nulllit (c : TypeChecker) :
    check_expression c .NullLiteral = (c, .Null) := rfl

@[simp] theorem check_expression_ident (c : TypeChecker) (name : String) :
    check_expression c (.Identifier name) = (c, identType name c.symbol_table) := rfl

@[simp] theorem check_expression_array_nil (c : TypeChecker) :
    check_expression c (.ArrayExpression []) = (c, .Array .Any) := rfl

@[simp] theorem check_expression_array_hole (c : TypeChecker) (rest : List (Option Expr)) :
    check_expression c (.ArrayExpression (none :: rest)) = (c, .Array .Any) := rfl

@[simp] theorem check_expression_array_cons (c : TypeChecker) (e : Expr) (rest : List (Option Expr)) :
    check_expression c (.ArrayExpression (some e :: rest))
      = ((check_expression c e).1, .Array (check_expression c e).2) := rfl

@[simp] theorem check_expression_other (c : TypeChecker) :
    check_expression c .otherExpr = (c, .Any) := rfl

theorem check_expression_binary_raw (c : TypeChecker) (op : BinaryOperator) (l r : Expr) :
    check_expression c (.BinaryExpression op l r)
      = ((match (binary_op_result op (check_expression c l).2
                  (check_expression (check_expression c l).1 r).2).1 with
          | some msg =>
              {(check_expression (check_expression c l).1 r).1 with
                errors := (check_expression (check_expression c l).1 r).1.errors ++ [msg]}
          | none => (check_expression (check_expression c l).1 r).1),
         (binary_op_result op (check_expression c l).2
           (check_expression (check_expression c l).1 r).2).2) := rfl

theorem check_expression_binary_eq {c c1 c2 : TypeChecker} {l r : Expr} {lt rt : Ty}
    (op : BinaryOperator)
    (hl : check_expression c l = (c1, lt)) (hr : check_expression c1 r = (c2, rt)) :
    check_expression c (.BinaryExpression op l r)
      = ((match (binary_op_result op lt rt).1 with
          | some msg => {c2 with errors := c2.errors ++ [msg]}
          | none => c2),
         (binary_op_result op lt rt).2) := by
  rw [check_expression_binary_raw]
  rw [hl, hr]

/-- The function `check_expression` only appends to `errors` and never touches the
symbol table: its effect on any state factors through its run from an
empty diagnostic list over the same table. -/
theorem check_expression_state : ∀ (e : Expr) (c : TypeChecker),
    check_expression c e
      = (⟨c.errors ++ (check_expression ⟨[], c.symbol_table⟩ e).1.errors, c.symbol_table⟩,
         (check_expression ⟨[], c.symbol_table⟩ e).2)
  | .NumericLiteral, c => by simp
  | .BigIntLiteral, c => by simp
  | .StringLiteral, c => by simp
  | .BooleanLiteral, c => by simp
  | .NullLiteral, c => by simp
  | .Identifier name, c => by simp
  | .ArrayExpression [], c => by simp
  | .ArrayExpression (none :: rest), c => by simp
  | .ArrayExpression (some e :: rest), c => by
      have h1 := check_expression_state e c
      have h0 := check_expression_state e ⟨[], c.symbol_table⟩
      simp only [List.nil_append] at h0
      rw [check_expression_array_cons, check_expression_array_cons, h1, h0]
  | .BinaryExpression op l r, c => by
      have Hl := check_expression_state l c
      have Hl0 := check_expression_state l ⟨[], c.symbol_table⟩
      simp only [List.nil_append] at Hl0
      have Hr1 := check_expression_state r
        ⟨c.errors ++ (check_expression ⟨[], c.symbol_table⟩ l).1.errors, c.symbol_table⟩
      simp only [List.nil_append] at Hr1
      have Hr0 := check_expression_state r
        ⟨(check_expression ⟨[], c.symbol_table⟩ l).1.errors, c.symbol_table⟩
      simp only [List.nil_append] at Hr0
      rw [check_expression_binary_eq op Hl Hr1, check_expression_binary_eq op Hl0 Hr0]
      cases (binary_op_result op (check_expression ⟨[], c.symbol_table⟩ l).2
              (check_expression ⟨[], c.symbol_table⟩ r).2).1 <;>
        simp [List.append_assoc]
  | .otherExpr, c => by simp

theorem identType_congr (name : String) (T1 T2 : List (String × Ty))
    (h : T1.lookup name = T2.lookup name) :
    identType name T1 = identType name T2 := by
  unfold identType
  split <;> simp_all

/-- Evaluating an expression over two tables that agree on every
identifier the expression reads yields the same diagnostics and the same
type. -/
theorem check_expression_congr : ∀ (e : Expr) (T1 T2 : List (String × Ty)),
    (∀ n ∈ evalIdents e, T1.lookup n = T2.lookup n) →
    (check_expression ⟨[], T1⟩ e).1.errors = (check_expression ⟨[], T2⟩ e).1.errors
    ∧ (check_expression ⟨[], T1⟩ e).2 = (check_expression ⟨[], T2⟩ e).2
  | .NumericLiteral, T1, T2, h => ⟨rfl, rfl⟩
  | .BigIntLiteral, T1, T2, h => ⟨rfl, rfl⟩
  | .StringLiteral, T1, T2, h => ⟨rfl, rfl⟩
  | .BooleanLiteral, T1, T2, h => ⟨rfl, rfl⟩
  | .NullLiteral, T1, T2, h => ⟨rfl, rfl⟩
  | .Identifier name, T1, T2, h => by
      refine ⟨rfl, ?_⟩
      simp only [check_expression_ident]
      exact identType_congr name T1 T2 (h name (by simp [evalIdents]))
  | .ArrayExpression [], T1, T2, h => ⟨rfl, rfl⟩
  | .ArrayExpression (none :: rest), T1, T2, h => ⟨rfl, rfl⟩
  | .ArrayExpression (some e :: rest), T1, T2, h => by
      have ih := check_expression_congr e T1 T2 (by
        intro n hn
        exact h n (by simpa [evalIdents] using hn))
      simp only [check_expression_array_cons]
      exact ⟨ih.1, by rw [ih.2]⟩
  | .BinaryExpression op l r, T1, T2, h => by
      have ihl := check_expression_congr l T1 T2 (by
        intro n hn
        exact h n (by simp [evalIdents, hn]))
      have ihr := check_expression_congr r T1 T2 (by
        intro n hn
        exact h n (by simp [evalIdents, hn]))
      have Hl1 := check_expression_state l ⟨[], T1⟩
      simp only [List.nil_append] at Hl1
      have Hl2 := check_expression_state l ⟨[], T2⟩
      simp only [List.nil_append] at Hl2
      have Hr1 := check_expression_state r ⟨(check_expression ⟨[], T1⟩ l).1.errors, T1⟩
      simp only [List.nil_append] at Hr1
      have Hr2 := check_expression_state r ⟨(check_expression ⟨[], T2⟩ l).1.errors, T2⟩
      simp only [List.nil_append] at Hr2
      rw [check_expression_binary_eq op Hl1 Hr1, check_expression_binary_eq op Hl2 Hr2]
      rw [ihl.1, ihl.2, ihr.1, ihr.2]
      cases (binary_op_result op (check_expression ⟨[], T2⟩ l).2
              (check_expression ⟨[], T2⟩ r).2).1 <;> simp
  | .otherExpr, T1, T2, h => ⟨rfl, rfl⟩

/- Arm-level unfolding equations for the statement checker. -/

@[simp] theorem check_statement_vardecl (c : TypeChecker) (ds : List Declarator) :
    check_statement c (.VariableDeclaration ds) = check_declarators c ds := rfl

@[simp] theorem check_declarators_nil (c : TypeChecker) :
    check_declarators c [] = c := rfl

@[simp] theorem check_declarators_cons (c : TypeChecker) (d : Declarator) (ds : List Declarator) :
    check_declarators c (d :: ds) = check_declarators (check_declarator c d) ds := rfl

theorem check_declarator_noann (c : TypeChecker) (name : String) (init : Expr) :
    check_declarator c ⟨⟨.BindingIdentifier name, none⟩, some init⟩
      = (let p := check_expression c init
         let c2 : TypeChecker := ⟨p.1.errors, symbolInsert name p.2 p.1.symbol_table⟩
         let q := check_expression c2 init
         if check_type_compatibility p.2 q.2 then q.1
         else ⟨q.1.errors ++ [notAssignableError q.2 p.2], q.1.symbol_table⟩) := rfl

theorem lookup_symbolInsert_ne (n name : String) (t : Ty) (T : List (String × Ty))
    (h : n ≠ name) : (symbolInsert name t T).lookup n = T.lookup n := by
  have hb : (n == name) = false := beq_eq_false_iff_ne.mpr h
  simp [symbolInsert, List.lookup, hb]

/-- C2 (amended): a declarator with an initializer and no annotation
evaluates its initializer twice — once for inference and once for the
compatibility check — with the declared name bound in between; when the
initializer does not read the declared name, both evaluations emit the
same diagnostics, so each diagnostic of a single evaluation is recorded
exactly twice (followed by a not-assignable diagnostic in the corner case
where the inferred type is not self-compatible). -/
theorem claim_C2_amended :
    ∀ (E : List String) (T : List (String × Ty)) (name : String) (init : Expr),
      name ∉ evalIdents init →
      check_statement ⟨E, T⟩
          (.VariableDeclaration [⟨⟨.BindingIdentifier name, none⟩, some init⟩])
        = ⟨E ++ (check_expression ⟨[], T⟩ init).1.errors
              ++ ((check_expression ⟨[], T⟩ init).1.errors
              ++ (if check_type_compatibility (check_expression ⟨[], T⟩ init).2
                      (check_expression ⟨[], T⟩ init).2
                  then []
                  else [notAssignableError (check_expression ⟨[], T⟩ init).2
                          (check_expression ⟨[], T⟩ init).2])),
           symbolInsert name (check_expression ⟨[], T⟩ init).2 T⟩ := by
  intro E T name init hname
  have hagree : ∀ n ∈ evalIdents init,
      (symbolInsert name (check_expression ⟨[], T⟩ init).2 T).lookup n = T.lookup n := by
    intro n hn
    exact lookup_symbolInsert_ne n name _ T (fun heq => hname (heq ▸ hn))
  have hcongr := check_expression_congr init
    (symbolInsert name (check_expression ⟨[], T⟩ init).2 T) T hagree
  have H1 := check_expression_state init ⟨E, T⟩
  simp only at H1
  have H2 := check_expression_state init
    ⟨E ++ (check_expression ⟨[], T⟩ init).1.errors,
     symbolInsert name (check_expression ⟨[], T⟩ init).2 T⟩
  simp only at H2
  rw [check_statement_vardecl, check_declarators_cons, check_declarators_nil,
      check_declarator_noann]
  simp only [H1]
  rw [H2]
  simp only [hcongr.1, hcongr.2]
  cases hc : check_type_compatibility (check_expression ⟨[], T⟩ init).2
      (check_expression ⟨[], T⟩ init).2 <;>
    simp [hc, List.append_assoc]

/-- C2 counterexample: `let x = x + 1n;` on a fresh checker. The first
evaluation of the initializer sees `x` unbound (type `any`), the second
runs after `x` has been bound to `Number`, so the two evaluations emit
DIFFERENT diagnostics and the diagnostic of a single evaluation appears
once, not twice. -/
theorem claim_C2_counterexample :
    get_errors (check_statement TypeChecker.new
        (.VariableDeclaration
          [⟨⟨.BindingIdentifier "x", none⟩,
            some (.BinaryExpression .Addition (.Identifier "x") .BigIntLiteral)⟩]))
      = ["The binary operation between 'any' and 'bigint' is not allowed",
         "The binary operation between 'number' and 'bigint' is not allowed"]
    ∧ (check_expression TypeChecker.new
        (.BinaryExpression .Addition (.Identifier "x") .BigIntLiteral)).1.errors
      = ["The binary operation between 'any' and 'bigint' is not allowed"]
    ∧ (get_errors (check_statement TypeChecker.new
        (.VariableDeclaration
          [⟨⟨.BindingIdentifier "x", none⟩,
            some (.BinaryExpression .Addition (.Identifier "x") .BigIntLiteral)⟩]))).count
        "The binary operation between 'any' and 'bigint' is not allowed" = 1 :=
  ⟨rfl, rfl, by decide⟩

theorem claim_C2_amended_witness :
    check_statement ⟨[], [("a", Ty.Number)]⟩
        (.VariableDeclaration
          [⟨⟨.BindingIdentifier "y", none⟩,
            some (.BinaryExpression .Multiplication (.Identifier "a") .BigIntLiteral)⟩])
      = ⟨["The binary operation between 'number' and 'bigint' is not allowed",
          "The binary operation between 'number' and 'bigint' is not allowed"],
         [("y", Ty.Number), ("a", Ty.Number)]⟩ := by
  rw [claim_C2_amended [] [("a", Ty.Number)] "y"
        (.BinaryExpression .Multiplication (.Identifier "a") .BigIntLiteral)
        (by decide)]
  rfl

/-- C7: for the subtraction/multiplication/division/remainder/
exponentiation operators, the result is `BigInt` on two `BigInt`s,
`Number` on two `Number`s, `Number` plus the invalid-binary-operation
diagnostic when exactly one side is `BigInt`, and `Any` (silently) on
every other combination. -/
theorem claim_C7_arith_operators :
    ∀ (op : BinaryOperator),
      op ∈ [BinaryOperator.Subtraction, .Multiplication, .Division, .Remainder, .Exponential] →
    ∀ (c c1 c2 : TypeChecker) (l r : Expr) (lt rt : Ty),
      check_expression c l = (c1, lt) →
      check_expression c1 r = (c2, rt) →
      ((lt = .BigInt ∧ rt = .BigInt →
          check_expression c (.BinaryExpression op l r) = (c2, .BigInt))
       ∧ (lt = .Number ∧ rt = .Number →
          check_expression c (.BinaryExpression op l r) = (c2, .Number))
       ∧ (((lt = .BigInt ∧ rt ≠ .BigInt) ∨ (lt ≠ .BigInt ∧ rt = .BigInt)) →
          check_expression c (.BinaryExpression op l r)
            = ({c2 with errors := c2.errors ++ [binOpError lt rt]}, .Number))
       ∧ (lt ≠ .BigInt → rt ≠ .BigInt → ¬(lt = .Number ∧ rt = .Number) →
          check_expression c (.BinaryExpression op l r) = (c2, .Any))) := by
  intro op hop c c1 c2 l r lt rt hl hr
  rw [check_expression_binary_eq op hl hr]
  fin_cases hop <;>
    exact ⟨by rintro ⟨rfl, rfl⟩; rfl,
           by rintro ⟨rfl, rfl⟩; rfl,
           by rintro (⟨rfl, h⟩ | ⟨h, rfl⟩) <;> [cases rt; cases lt] <;>
                first | exact absurd rfl h | rfl,
           by intro h1 h2 h3
              cases lt <;>
                first
                  | exact absurd rfl h1
                  | (cases rt <;>
                      first
                        | exact absurd rfl h2
                        | rfl
                        | exact absurd ⟨rfl, rfl⟩ h3)⟩

theorem claim_C7_arith_operators_witness :
    check_expression TypeChecker.new
        (.BinaryExpression .Subtraction .BigIntLiteral .NumericLiteral)
      = (⟨["The binary operation between 'bigint' and 'number' is not allowed"], []⟩, .Number) := by
  have h := (claim_C7_arith_operators .Subtraction (by simp) TypeChecker.new TypeChecker.new
      TypeChecker.new .BigIntLiteral .NumericLiteral .BigInt .Number rfl rfl).2.2.1
      (Or.inl ⟨rfl, by simp⟩)
  rw [h]
  rfl

/-!
### Append-only diagnostics (C9)
-/

theorem errorsExtend_refl (c : TypeChecker) : ErrorsExtend c c :=
  ⟨[], (List.append_nil _).symm⟩

theorem errorsExtend_trans {a b c : TypeChecker}
    (h1 : ErrorsExtend a b) (h2 : ErrorsExtend b c) : ErrorsExtend a c := by
  obtain ⟨d1, hd1⟩ := h1
  obtain ⟨d2, hd2⟩ := h2
  exact ⟨d1 ++ d2, by rw [hd2, hd1, List.append_assoc]⟩

theorem errorsExtend_of_errors_eq {a b : TypeChecker}
    (h : b.errors = a.errors) : ErrorsExtend a b :=
  ⟨[], by rw [h, List.append_nil]⟩

theorem errorsExtend_expr (c : TypeChecker) (e : Expr) :
    ErrorsExtend c (check_expression c e).1 :=
  ⟨(check_expression ⟨[], c.symbol_table⟩ e).1.errors, by rw [check_expression_state e c]⟩

theorem errorsExtend_if_push (b : Bool) (q : TypeChecker) (m : String) :
    ErrorsExtend q (if b then q else ⟨q.errors ++ [m], q.symbol_table⟩) := by
  cases b
  · exact ⟨[m], rfl⟩
  · exact ⟨[], by simp⟩

/- Arm-level unfolding equations for the remaining checker functions. -/

theorem check_declarator_ann_init (c : TypeChecker) (name : String) (a : TSTyp) (i : Expr) :
    check_declarator c ⟨⟨.BindingIdentifier name, some a⟩, some i⟩
      = (let c2 : TypeChecker := ⟨c.errors, symbolInsert name (check_type a) c.symbol_table⟩
         let q := check_expression c2 i
         if check_type_compatibility (check_type a) q.2 then q.1
         else ⟨q.1.errors ++ [notAssignableError q.2 (check_type a)], q.1.symbol_table⟩) := rfl

@[simp] theorem check_declarator_ann_noinit (c : TypeChecker) (name : String) (a : TSTyp) :
    check_declarator c ⟨⟨.BindingIdentifier name, some a⟩, none⟩
      = ⟨c.errors, symbolInsert name (check_type a) c.symbol_table⟩ := rfl

@[simp] theorem check_declarator_noann_noinit (c : TypeChecker) (name : String) :
    check_declarator c ⟨⟨.BindingIdentifier name, none⟩, none⟩
      = ⟨c.errors, symbolInsert name .Any c.symbol_table⟩ := rfl

@[simp] theorem check_declarator_otherPattern (c : TypeChecker) (ann : Option TSTyp)
    (init : Option Expr) :
    check_declarator c ⟨⟨.otherPattern, ann⟩, init⟩ = c := rfl

theorem errorsExtend_congr_left {a a' b : TypeChecker}
    (h : a.errors = a'.errors) (hx : ErrorsExtend a' b) : ErrorsExtend a b := by
  obtain ⟨d, hd⟩ := hx
  exact ⟨d, by rw [hd, h]⟩

theorem errorsExtend_declarator (c : TypeChecker) (d : Declarator) :
    ErrorsExtend c (check_declarator c d) := by
  obtain ⟨⟨kind, ann⟩, init⟩ := d
  cases kind with
  | otherPattern => exact errorsExtend_refl c
  | BindingIdentifier name =>
      cases ann with
      | some a =>
          cases init with
          | none => exact errorsExtend_of_errors_eq rfl
          | some i =>
              rw [check_declarator_ann_init]
              refine errorsExtend_trans
                (b := (check_expression
                  ⟨c.errors, symbolInsert name (check_type a) c.symbol_table⟩ i).1)
                ?_ (errorsExtend_if_push _ _ _)
              exact errorsExtend_congr_left rfl (errorsExtend_expr _ i)
      | none =>
          cases init with
          | none => exact errorsExtend_of_errors_eq rfl
          | some i =>
              rw [check_declarator_noann]
              refine errorsExtend_trans
                (b := (check_expression
                  ⟨(check_expression c i).1.errors,
                   symbolInsert name (check_expression c i).2
                     (check_expression c i).1.symbol_table⟩ i).1)
                ?_ (errorsExtend_if_push _ _ _)
              refine errorsExtend_trans (errorsExtend_expr c i) ?_
              exact errorsExtend_congr_left rfl (errorsExtend_expr _ i)

theorem errorsExtend_declarators : ∀ (ds : List Declarator) (c : TypeChecker),
    ErrorsExtend c (check_declarators c ds)
  | [], c => errorsExtend_refl c
  | d :: ds, c => by
      rw [check_declarators_cons]
      exact errorsExtend_trans (errorsExtend_declarator c d)
        (errorsExtend_declarators ds (check_declarator c d))

@[simp] theorem declare_params_nil (c : TypeChecker) : declare_params c [] = (c, []) := rfl

theorem declare_params_cons (c : TypeChecker) (p : BindingPattern) (ps : List BindingPattern) :
    declare_params c (p :: ps)
      = (let param_ty :=
           match p.tyAnn with
           | some ann => check_type ann
           | none => Ty.Any
         let c1 :=
           match p.kind with
           | .BindingIdentifier name =>
               ({c with symbol_table := symbolInsert name param_ty c.symbol_table} : TypeChecker)
           | .otherPattern => c
         let pr := declare_params c1 ps
         (pr.1, param_ty :: pr.2)) := rfl

/-- The parameter-declaration loop never pushes a diagnostic. -/
theorem declare_params_errors : ∀ (ps : List BindingPattern) (c : TypeChecker),
    (declare_params c ps).1.errors = c.errors
  | [], c => rfl
  | p :: ps, c => by
      rw [declare_params_cons]
      obtain ⟨kind, ann⟩ := p
      cases kind <;> simp only [] <;> rw [declare_params_errors ps]

@[simp] theorem check_statement_funcdecl_none (c : TypeChecker) (params : List BindingPattern)
    (ret : Option TSTyp) (body : Option (List Stmt)) :
    check_statement c (.FunctionDeclaration none params ret body) = c := rfl

theorem check_statement_funcdecl_nobody (c : TypeChecker) (name : String)
    (params : List BindingPattern) (ret : Option TSTyp) :
    check_statement c (.FunctionDeclaration (some name) params ret none)
      = (let pr := declare_params c params
         let return_ty :=
           match ret with
           | some ann => check_type ann
           | none => Ty.Any
         (⟨pr.1.errors, symbolInsert name (.Function pr.2 return_ty) pr.1.symbol_table⟩
           : TypeChecker)) := rfl

theorem check_statement_funcdecl_body (c : TypeChecker) (name : String)
    (params : List BindingPattern) (ret : Option TSTyp) (stmts : List Stmt) :
    check_statement c (.FunctionDeclaration (some name) params ret (some stmts))
      = (let pr := declare_params c params
         let return_ty :=
           match ret with
           | some ann => check_type ann
           | none => Ty.Any
         check_function_body
           ⟨pr.1.errors, symbolInsert name (.Function pr.2 return_ty) pr.1.symbol_table⟩
           return_ty stmts) := rfl

@[simp] theorem check_statement_return (c : TypeChecker) (arg : Option Expr) :
    check_statement c (.ReturnStatement arg) = c := rfl

@[simp] theorem check_statement_otherStmt (c : TypeChecker) :
    check_statement c .otherStmt = c := rfl

@[simp] theorem check_function_body_nil (c : TypeChecker) (rt : Ty) :
    check_function_body c rt [] = c := rfl

theorem check_function_body_cons_return_some (c : TypeChecker) (rt : Ty) (arg : Expr)
    (rest : List Stmt) :
    check_function_body c rt (.ReturnStatement (some arg) :: rest)
      = check_function_body
          (let q := check_expression c arg
           if check_type_compatibility rt q.2 then q.1
           else ⟨q.1.errors ++ [notAssignableError q.2 rt], q.1.symbol_table⟩) rt rest := rfl

@[simp] theorem check_function_body_cons_return_none (c : TypeChecker) (rt : Ty)
    (rest : List Stmt) :
    check_function_body c rt (.ReturnStatement none :: rest)
      = check_function_body c rt rest := rfl

theorem check_function_body_cons_vardecl (c : TypeChecker) (rt : Ty) (ds : List Declarator)
    (rest : List Stmt) :
    check_function_body c rt (.VariableDeclaration ds :: rest)
      = check_function_body (check_statement c (.VariableDeclaration ds)) rt rest := rfl

theorem check_function_body_cons_funcdecl (c : TypeChecker) (rt : Ty) (id : Option String)
    (params : List BindingPattern) (ret : Option TSTyp) (body : Option (List Stmt))
    (rest : List Stmt) :
    check_function_body c rt (.FunctionDeclaration id params ret body :: rest)
      = check_function_body (check_statement c (.FunctionDeclaration id params ret body))
          rt rest := rfl

theorem check_function_body_cons_otherStmt (c : TypeChecker) (rt : Ty) (rest : List Stmt) :
    check_function_body c rt (.otherStmt :: rest)
      = check_function_body (check_statement c .otherStmt) rt rest := rfl

mutual

theorem errorsExtend_statement : ∀ (s : Stmt) (c : TypeChecker),
    ErrorsExtend c (check_statement c s)
  | .VariableDeclaration ds, c => by
      rw [check_statement_vardecl]
      exact errorsExtend_declarators ds c
  | .FunctionDeclaration none _ _ _, c => errorsExtend_refl c
  | .FunctionDeclaration (some name) params ret none, c => by
      rw [check_statement_funcdecl_nobody]
      exact errorsExtend_of_errors_eq (declare_params_errors params c)
  | .FunctionDeclaration (some name) params ret (some stmts), c => by
      rw [check_statement_funcdecl_body]
      refine errorsExtend_trans
        (b := ⟨(declare_params c params).1.errors,
               symbolInsert name
                 (.Function (declare_params c params).2
                   (match ret with
                    | some ann => check_type ann
                    | none => Ty.Any))
                 (declare_params c params).1.symbol_table⟩)
        (errorsExtend_of_errors_eq (declare_params_errors params c)) ?_
      exact errorsExtend_body stmts _ _
  | .ReturnStatement _, c => errorsExtend_refl c
  | .otherStmt, c => errorsExtend_refl c

theorem errorsExtend_body : ∀ (ss : List Stmt) (rt : Ty) (c : TypeChecker),
    ErrorsExtend c (check_function_body c rt ss)
  | [], _, c => errorsExtend_refl c
  | .ReturnStatement (some arg) :: rest, rt, c => by
      rw [check_function_body_cons_return_some]
      refine errorsExtend_trans
        (b := (let q := check_expression c arg
               if check_type_compatibility rt q.2 then q.1
               else ⟨q.1.errors ++ [notAssignableError q.2 rt], q.1.symbol_table⟩))
        ?_ (errorsExtend_body rest rt _)
      exact errorsExtend_trans (errorsExtend_expr c arg) (errorsExtend_if_push _ _ _)
  | .ReturnStatement none :: rest, rt, c => by
      rw [check_function_body_cons_return_none]
      exact errorsExtend_body rest rt c
  | .VariableDeclaration ds :: rest, rt, c => by
      rw [check_function_body_cons_vardecl]
      exact errorsExtend_trans (errorsExtend_statement (.VariableDeclaration ds) c)
        (errorsExtend_body rest rt _)
  | .FunctionDeclaration id params ret body :: rest, rt, c => by
      rw [check_function_body_cons_funcdecl]
      exact errorsExtend_trans (errorsExtend_statement (.FunctionDeclaration id params ret body) c)
        (errorsExtend_body rest rt _)
  | .otherStmt :: rest, rt, c => by
      rw [check_function_body_cons_otherStmt]
      exact errorsExtend_trans (errorsExtend_statement .otherStmt c)
        (errorsExtend_body rest rt _)

end

@[simp] theorem check_statement_list_nil (c : TypeChecker) :
    check_statement_list c [] = c := rfl

@[simp] theorem check_statement_list_cons (c : TypeChecker) (s : Stmt) (rest : List Stmt) :
    check_statement_list c (s :: rest) = check_statement_list (check_statement c s) rest := rfl

theorem errorsExtend_statement_list : ∀ (ss : List Stmt) (c : TypeChecker),
    ErrorsExtend c (check_statement_list c ss)
  | [], c => errorsExtend_refl c
  | s :: rest, c => by
      rw [check_statement_list_cons]
      exact errorsExtend_trans (errorsExtend_statement s c)
        (errorsExtend_statement_list rest _)

/-- C9: every entry point only ever appends to the diagnostic list — the
diagnostics present before a call to `check_expression`,
`check_statement` or `check_program` are an unchanged prefix of the
diagnostics after it (`check_type` takes no state at all), and
`get_errors` returns the accumulated list itself, in order. -/
theorem claim_C9_append_only :
    (∀ (c : TypeChecker) (e : Expr), ∃ d, (check_expression c e).1.errors = c.errors ++ d)
    ∧ (∀ (c : TypeChecker) (s : Stmt), ∃ d, (check_statement c s).errors = c.errors ++ d)
    ∧ (∀ (c : TypeChecker) (p : Program), ∃ d, (check_program c p).errors = c.errors ++ d)
    ∧ (∀ c : TypeChecker, get_errors c = c.errors) :=
  ⟨fun c e => errorsExtend_expr c e,
   fun c s => errorsExtend_statement s c,
   fun c p => errorsExtend_statement_list p.body c,
   fun _ => rfl⟩
